import Mathlib

/-!
Verification of the streaming chat-completion relay of the graph-llm backend
(src/src/chat/chat.controller.ts) against its natural-language specification.

The TypeScript source is shallowly embedded: each JavaScript object that the
relay manipulates becomes a Lean structure (absent or undefined fields become
Option), each pure function becomes a Lean function, the res.write side
effects become an explicitly collected list of SSE frames, the captureEvent
telemetry side effects become an explicitly collected list of outcome
records, and the external collaborators (JSON.parse, the secondary
image-generation fetch) become oracle parameters, so that the relay is a
total function of its inputs and oracles.
-/

namespace GraphLLM

/-- Truthiness of a JavaScript string-or-absent value: undefined, null and
the empty string are falsy, every other string is truthy. -/
def truthy : Option String → Bool
  | some s => s ≠ ""
  | none => false

/-! ## Message normalizer (transformMessages / convertMessagesToAPIFormat)

A content part on the wire is a JavaScript object with a type tag and,
depending on the producer, a text field, a snake-case image_url field or a
camel-case imageUrl field; fields a given object does not carry are Option
none.  chat.controller.ts lines 18-48 and 421-474. -/

/-- The nested URL object of an image part: url plus optional detail hint. -/
structure ImageUrlObj where
  url : String
  detail : Option String
  deriving DecidableEq, Repr

/-- A content-part object as JavaScript sees it: a type tag plus the three
possible payload fields, each possibly absent. -/
structure JPart where
  type : String
  text : Option String := none
  image_url : Option ImageUrlObj := none
  imageUrl : Option ImageUrlObj := none
  deriving DecidableEq, Repr

/-- Message content: either a plain string or an array of parts. -/
inductive JContent where
  | str (s : String)
  | arr (parts : List JPart)
  deriving DecidableEq, Repr

/-- A conversation message: role plus content. -/
structure JMessage where
  role : String
  content : JContent
  deriving DecidableEq, Repr

/-- One part of the transformMessages content map (chat.controller.ts lines
430-442): a part tagged text is rebuilt as a two-field text object; EVERY
other part is rebuilt as an image_url part whose nested object is read from
its snake-case image_url field.  Reading that field when it is absent is the
JavaScript TypeError, modelled as none. -/
def transformPart (part : JPart) : Option JPart :=
  if part.type = "text" then
    some { type := "text", text := part.text }
  else
    part.image_url.map fun iu =>
      { type := "image_url", imageUrl := some { url := iu.url, detail := iu.detail } }

/-- content.map over the parts array; a TypeError in any element aborts the
whole map. -/
def transformParts : List JPart → Option (List JPart)
  | [] => some []
  | p :: rest =>
    match transformPart p, transformParts rest with
    | some q, some qs => some (q :: qs)
    | _, _ => none

/-- One element of the transformMessages message map (lines 423-446): user
and assistant messages keep string content and map array content through
transformPart; any other role is returned unchanged. -/
def transformMessage (msg : JMessage) : Option JMessage :=
  if msg.role = "user" ∨ msg.role = "assistant" then
    match msg.content with
    | JContent.str s => some { msg with content := JContent.str s }
    | JContent.arr parts =>
      (transformParts parts).map fun qs => { msg with content := JContent.arr qs }
  else some msg

/-- transformMessages (lines 422-447). -/
def transformMessages : List JMessage → Option (List JMessage)
  | [] => some []
  | m :: rest =>
    match transformMessage m, transformMessages rest with
    | some q, some qs => some (q :: qs)
    | _, _ => none

/-- One part of the convertMessagesToAPIFormat content map (lines 457-469):
the inverse renaming, reading the camel-case imageUrl field of every part
not tagged text. -/
def convertPart (part : JPart) : Option JPart :=
  if part.type = "text" then
    some { type := "text", text := part.text }
  else
    part.imageUrl.map fun iu =>
      { type := "image_url", image_url := some { url := iu.url, detail := iu.detail } }

/-- content.map over the parts array for the API-format direction. -/
def convertParts : List JPart → Option (List JPart)
  | [] => some []
  | p :: rest =>
    match convertPart p, convertParts rest with
    | some q, some qs => some (q :: qs)
    | _, _ => none

/-- One element of the convertMessagesToAPIFormat message map (lines
452-472): only user and assistant messages whose content is an array are
rebuilt; everything else is returned unchanged. -/
def convertMessage (msg : JMessage) : Option JMessage :=
  match msg.content with
  | JContent.arr parts =>
    if msg.role = "user" ∨ msg.role = "assistant" then
      (convertParts parts).map fun qs => { msg with content := JContent.arr qs }
    else some msg
  | JContent.str _ => some msg

/-- convertMessagesToAPIFormat (lines 451-474). -/
def convertMessagesToAPIFormat : List JMessage → Option (List JMessage)
  | [] => some []
  | m :: rest =>
    match convertMessage m, convertMessagesToAPIFormat rest with
    | some q, some qs => some (q :: qs)
    | _, _ => none

/-- The recognized wire shape of a content part: tagged text carrying a text
field and nothing else, or tagged image_url carrying a snake-case image_url
field and nothing else. -/
def WirePart (p : JPart) : Prop :=
  (p.type = "text" ∧ p.text ≠ none ∧ p.image_url = none ∧ p.imageUrl = none) ∨
  (p.type = "image_url" ∧ p.text = none ∧ p.image_url ≠ none ∧ p.imageUrl = none)

instance (p : JPart) : Decidable (WirePart p) :=
  inferInstanceAs (Decidable (_ ∨ _))

/-- The recognized wire shape of message content: any plain string, or an
array all of whose parts are wire-shaped. -/
def WireContent : JContent → Prop
  | JContent.str _ => True
  | JContent.arr parts => ∀ p ∈ parts, WirePart p

instance : (c : JContent) → Decidable (WireContent c)
  | JContent.str _ => isTrue trivial
  | JContent.arr parts => inferInstanceAs (Decidable (∀ p ∈ parts, WirePart p))

/-- The recognized wire shape of a message: one of the three roles, content
a plain string or an array of wire-shaped parts. -/
def WireMessage (m : JMessage) : Prop :=
  (m.role = "system" ∨ m.role = "user" ∨ m.role = "assistant") ∧ WireContent m.content

instance (m : JMessage) : Decidable (WireMessage m) :=
  inferInstanceAs (Decidable (_ ∧ _))

/-! ## Tool Call Assembler (chat.controller.ts lines 752-822)

toolCallsInProgress is a JavaScript Map from index to an entry object; a
Map preserves insertion order, so it is embedded as an association list
whose new keys are appended at the end. -/

/-- One tool-call delta fragment of an upstream chunk: its index, its id
and the name and arguments fields of its nested function object, all
possibly absent. -/
structure ToolCallDelta where
  index : Option Nat := none
  id : Option String := none
  fname : Option String := none
  farguments : Option String := none
  deriving DecidableEq, Repr

/-- An accumulator entry: the object stored in toolCallsInProgress. -/
structure Entry where
  id : String
  name : String
  arguments : String
  deriving DecidableEq, Repr

/-- The insertion-ordered Map from index to entry. -/
abbrev ToolMap := List (Nat × Entry)

/-- Map.has. -/
def mapHas (m : ToolMap) (k : Nat) : Bool := m.any fun p => p.1 == k

/-- Map.get. -/
def mapGet (m : ToolMap) (k : Nat) : Option Entry :=
  (m.find? fun p => p.1 == k).map fun p => p.2

/-- Map.set for a key not yet present: a JavaScript Map appends it after
the existing keys. -/
def mapSetNew (m : ToolMap) (k : Nat) (e : Entry) : ToolMap := m ++ [(k, e)]

/-- In-place mutation of the entry stored at a key, keeping its position. -/
def mapUpdate (m : ToolMap) (k : Nat) (f : Entry → Entry) : ToolMap :=
  m.map fun p => if p.1 == k then (p.1, f p.2) else p

/-- The per-fragment mutation of the located entry (lines 816-820): a
truthy id overwrites the id, a truthy function name overwrites the name,
truthy function arguments are appended to the argument buffer. -/
def applyDelta (tcd : ToolCallDelta) (tc : Entry) : Entry :=
  { id := if truthy tcd.id then tcd.id.getD "" else tc.id,
    name := if truthy tcd.fname then tcd.fname.getD "" else tc.name,
    arguments :=
      if truthy tcd.farguments then tc.arguments ++ tcd.farguments.getD ""
      else tc.arguments }

/-- Ingestion of one tool-call delta fragment (lines 804-821): an absent
index defaults to 0; a missing entry is created with id and name taken from
the fragment (empty when absent) and an empty argument buffer; then the
fragment is applied to the entry at the index. -/
def ingestToolCallDelta (m : ToolMap) (tcd : ToolCallDelta) : ToolMap :=
  let index := tcd.index.getD 0
  let m1 :=
    if mapHas m index then m
    else mapSetNew m index { id := tcd.id.getD "", name := tcd.fname.getD "", arguments := "" }
  mapUpdate m1 index (applyDelta tcd)

/-- Specification-side reading of the assembled argument buffer: the
concatenation, in arrival order, of the arguments carried by the fragments
(a fragment that carries none contributes nothing). -/
def argConcat : List ToolCallDelta → String
  | [] => ""
  | f :: rest => f.farguments.getD "" ++ argConcat rest

/-- The last truthy value of a list of string-or-absent values, if any. -/
def lastTruthy : List (Option String) → Option String
  | [] => none
  | o :: rest =>
    match lastTruthy rest with
    | some s => some s
    | none => if truthy o then o else none

/-- Specification-side reading of the assembled name: the last non-empty
name supplied by any fragment, if one was. -/
def lastNonEmptyName (frags : List ToolCallDelta) : Option String :=
  lastTruthy (frags.map ToolCallDelta.fname)

/-- Specification-side reading of the assembled id: the last non-empty id
supplied by any fragment, if one was. -/
def lastNonEmptyId (frags : List ToolCallDelta) : Option String :=
  lastTruthy (frags.map ToolCallDelta.id)

/-! ## Image generation (generateImage, chat.controller.ts lines 193-419)

The secondary upstream call is an oracle from the attempt number (the
retryCount of the attempting invocation) to the image URL extracted from
that response body, none when the response carries no URL at that path.
The run records the per-call result, the number of fetch attempts
performed, and the backoff delays (in milliseconds) slept between them. -/

/-- Instrumented result of one generateImage call. -/
structure ImgRun where
  result : Except String String
  attempts : Nat
  delays : List Nat
  deriving Repr

/-- The URL-scheme validation of line 343: the extracted value must be a
non-empty string beginning with data colon image slash, http or https. -/
def isValidUrl : Option String → Bool
  | none => false
  | some u =>
    u ≠ "" && (u.startsWith "data:image/" || u.startsWith "http://" || u.startsWith "https://")

/-- generateImage (lines 193-419), reduced to its retry skeleton: one fetch
per invocation, validation of the extracted URL, and on failure either a
1000 ms backoff followed by a recursive call with retryCount + 1 (while
retryCount is below 2) or the terminal per-call error. -/
def generateImage (oracle : Nat → Option String) (retryCount : Nat) : ImgRun :=
  let imageUrl := oracle retryCount
  if isValidUrl imageUrl then
    { result := Except.ok (imageUrl.getD ""), attempts := 1, delays := [] }
  else if retryCount < 2 then
    let rest := generateImage oracle (retryCount + 1)
    { result := rest.result, attempts := rest.attempts + 1, delays := 1000 :: rest.delays }
  else
    { result := Except.error ("No valid image URL returned after " ++
        toString (retryCount + 1) ++ " attempts"),
      attempts := 1, delays := [] }
  termination_by 3 - retryCount
  decreasing_by omega

/-! ## Upstream chunks and the streaming loop (chat.controller.ts lines 742-823) -/

/-- Token-usage counters of a chunk. -/
structure Usage where
  prompt_tokens : Option Nat := none
  completion_tokens : Option Nat := none
  total_tokens : Option Nat := none
  deriving DecidableEq, Repr

/-- The delta of a streamed choice. -/
structure Delta where
  content : Option String := none
  reasoning : Option String := none
  tool_calls : Option (List ToolCallDelta) := none
  deriving DecidableEq, Repr

/-- One choice of a streamed chunk. -/
structure Choice where
  delta : Option Delta := none
  finish_reason : Option String := none
  deriving DecidableEq, Repr

/-- One upstream stream chunk. -/
structure Chunk where
  choices : List Choice := []
  usage : Option Usage := none
  deriving DecidableEq, Repr

/-- The mutable per-request state of the streaming loop (lines 742-757):
the accumulated response and reasoning text, the chunk counter, the usage
snapshot, the tool-call accumulator and the recorded finish reason. -/
structure LoopState where
  fullResponse : String := ""
  fullReasoning : String := ""
  chunkCount : Nat := 0
  usageData : Option Usage := none
  toolCalls : ToolMap := []
  finishReason : Option String := none
  deriving DecidableEq, Repr

/-- The state updates of one iteration of the for-await loop (lines
760-823): count the chunk, capture usage last-write-wins, and for the first
choice record a truthy finish reason, append truthy reasoning and content
deltas to the accumulated text, and route tool-call delta fragments to the
assembler.  A chunk with no choice is skipped past the usage capture. -/
def processChunk (st : LoopState) (chunk : Chunk) : LoopState :=
  let st := { st with chunkCount := st.chunkCount + 1 }
  let st :=
    match chunk.usage with
    | some u => { st with usageData := some u }
    | none => st
  match chunk.choices.head? with
  | none => st
  | some choice =>
    let st :=
      if truthy choice.finish_reason then { st with finishReason := choice.finish_reason }
      else st
    let delta := choice.delta
    let reasoning := (delta.bind Delta.reasoning).getD ""
    let st :=
      if reasoning ≠ "" then { st with fullReasoning := st.fullReasoning ++ reasoning }
      else st
    let content := (delta.bind Delta.content).getD ""
    let st :=
      if content ≠ "" then { st with fullResponse := st.fullResponse ++ content }
      else st
    match delta.bind Delta.tool_calls with
    | some tcs => { st with toolCalls := tcs.foldl ingestToolCallDelta st.toolCalls }
    | none => st

/-- The res.write calls of one iteration of the same loop: a reasoning
frame when the reasoning delta is truthy, then a content frame when the
content delta is truthy.  The frames of an iteration depend only on the
chunk, so the writes of the loop are collected chunk by chunk. -/
inductive Frame where
  | reasoningF (s : String)
  | contentF (s : String)
  | imageF (url : String) (prompt : String)
  | youtubeF (videoId : Option String) (explanation : String)
  | errorF (error : String) (details : Option String)
  | done
  deriving DecidableEq, Repr

/-- The frames written while processing one chunk. -/
def chunkFrames (chunk : Chunk) : List Frame :=
  match chunk.choices.head? with
  | none => []
  | some choice =>
    let delta := choice.delta
    let reasoning := (delta.bind Delta.reasoning).getD ""
    let content := (delta.bind Delta.content).getD ""
    (if reasoning ≠ "" then [Frame.reasoningF reasoning] else []) ++
    (if content ≠ "" then [Frame.contentF content] else [])

/-- All frames written by the streaming loop, in order. -/
def streamedFrames (chunks : List Chunk) : List Frame :=
  (chunks.map chunkFrames).flatten

/-! ## Side-effect dispatch (chat.controller.ts lines 825-908)

JSON.parse and the generateImage network outcome are oracles: parseImgArgs
and parseYtArgs give the parse outcome of an argument buffer under the two
casts, and imageResult gives the outcome of the n-th generateImage call of
the dispatch phase (its retries already folded into one per-call outcome,
as the relay observes it). -/

/-- The parsed arguments of a generate_image call. -/
structure ImgArgs where
  prompt : String
  style : Option String := none
  deriving DecidableEq, Repr

/-- The parsed arguments of a show_youtube_video call. -/
structure YtArgs where
  videoId : Option String := none
  explanation : Option String := none
  deriving DecidableEq, Repr

/-- The external-world oracles of the dispatch phase. -/
structure DispatchCtx where
  parseImgArgs : String → Except String ImgArgs
  parseYtArgs : String → Except String YtArgs
  imageResult : Nat → Except String String

/-- Dispatch of one accumulator entry (the body of the for-of loop over
toolCallsInProgress, lines 827-907): the generate_image branch parses the
argument buffer, calls generateImage (consuming the next imageResult
outcome) and writes exactly one image or error frame; the independent
show_youtube_video branch parses the buffer and writes exactly one youtube
or error frame, with no network call; any other name writes nothing.
Returns the frames written, the text appended to fullResponse, and the next
imageResult ordinal. -/
def dispatchOne (ctx : DispatchCtx) (n : Nat) (tc : Entry) : List Frame × String × Nat :=
  let imgPart : List Frame × String × Nat :=
    if tc.name = "generate_image" then
      match ctx.parseImgArgs tc.arguments with
      | Except.error e => ([Frame.errorF ("Failed to generate image: " ++ e) none], "", n)
      | Except.ok args =>
        match ctx.imageResult n with
        | Except.ok imageUrl =>
          ([Frame.imageF imageUrl args.prompt], "[IMAGE:" ++ imageUrl ++ "]", n + 1)
        | Except.error e =>
          ([Frame.errorF ("Failed to generate image: " ++ e) none], "", n + 1)
    else ([], "", n)
  let ytPart : List Frame × String :=
    if tc.name = "show_youtube_video" then
      match ctx.parseYtArgs tc.arguments with
      | Except.error e => ([Frame.errorF ("Failed to embed YouTube video: " ++ e) none], "")
      | Except.ok args =>
        ([Frame.youtubeF args.videoId (args.explanation.getD "")],
         "[YOUTUBE:" ++ (match args.videoId with | some v => v | none => "undefined") ++ "]")
    else ([], "")
  (imgPart.1 ++ ytPart.1, imgPart.2.1 ++ ytPart.2, imgPart.2.2)

/-- The sequential dispatch of all accumulator entries in Map iteration
order, threading the imageResult ordinal; yields the frames written and the
total text appended to fullResponse. -/
def dispatchLoop (ctx : DispatchCtx) : List (Nat × Entry) → Nat → List Frame × String
  | [], _ => ([], "")
  | p :: rest, n =>
    let r := dispatchOne ctx n p.2
    let tail := dispatchLoop ctx rest r.2.2
    (r.1 ++ tail.1, r.2.1 ++ tail.2)

/-- The per-entry frame blocks of the dispatch phase, one block per
accumulator entry, in Map iteration order. -/
def dispatchBlocks (ctx : DispatchCtx) : List (Nat × Entry) → Nat → List (List Frame)
  | [], _ => []
  | p :: rest, n =>
    (dispatchOne ctx n p.2).1 :: dispatchBlocks ctx rest (dispatchOne ctx n p.2).2.2

/-! ## Stream-open error rewriting and the relay (lines 607-1004) -/

/-- Whether the pattern is a contiguous run at the head of the text. -/
def headRun : List Char → List Char → Bool
  | [], _ => true
  | _ :: _, [] => false
  | p :: ps, c :: cs => p == c && headRun ps cs

/-- Whether the pattern occurs contiguously somewhere in the text. -/
def occursIn (pat : List Char) : List Char → Bool
  | [] => pat.isEmpty
  | c :: cs => headRun pat (c :: cs) || occursIn pat cs

/-- JavaScript String.prototype.includes. -/
def containsSub (s pat : String) : Bool := occursIn pat.data s.data

/-- The rewritten invalid-key message of lines 716-717. -/
def invalidKeyMessage : String :=
  "Invalid or missing OpenRouter API key. Please check your OPENROUTER_API_KEY environment variable."

/-- The rewritten safety-filter message of lines 719-720. -/
def safetyMessage : String :=
  "Content was flagged by the AI provider\x27s safety filter. This has been logged and will be retried with a different format."

/-- The stream-open error classification of lines 711-722: two known error
substrings are rewritten into actionable text, anything else is passed
through. -/
def rewriteOpenError (msg : String) : String :=
  if containsSub msg "User not found" then invalidKeyMessage
  else if containsSub msg "SAFETY_CHECK_TYPE_DATA_LEAKAGE" then safetyMessage
  else msg

/-- One captureEvent record of the relay, as the telemetry sink receives
it (projected to the fields the specification speaks about). -/
structure Telemetry where
  success : Bool
  responseLength : Nat
  reasoningLength : Nat
  chunkCount : Nat
  errMsg : Option String
  deriving DecidableEq, Repr

/-- What opening the upstream stream did: the openRouter.chat.send call
threw with a message, or it yielded a stream that delivers the listed
chunks and then either ends normally or raises with a message. -/
inductive OpenOutcome where
  | openError (msg : String)
  | opened (chunks : List Chunk) (streamErr : Option String)

/-- Everything streamChat leaves behind on the transport and at the
telemetry sink: the SSE frames written in order, whether res.end was
called, and the captureEvent records emitted in order. -/
structure StreamResult where
  frames : List Frame
  closed : Bool
  telemetry : List Telemetry
  deriving Repr

/-- streamChat (lines 610-1004) as a function of the trimmed api key, the
stream-open outcome and the dispatch oracles.  A missing or empty key
writes one error frame and ends with no telemetry (lines 659-677); a
stream-open failure writes one error frame carrying the rewritten message
and ends with no telemetry (lines 710-740); a raise during chunk
consumption falls to the catch block, which emits one success=false
telemetry record and writes one terminal error frame (lines 967-1003);
otherwise the loop frames, the dispatch frames, the terminal DONE marker
and one success=true telemetry record are produced (lines 759-966). -/
def streamChat (apiKey : Option String) (outcome : OpenOutcome) (ctx : DispatchCtx) :
    StreamResult :=
  if apiKey.getD "" = "" then
    { frames := [Frame.errorF "Failed to initialize chat stream"
        (some "OPENROUTER_API_KEY environment variable is not set or is empty")],
      closed := true, telemetry := [] }
  else
    match outcome with
    | OpenOutcome.openError msg =>
      { frames := [Frame.errorF "Failed to initialize chat stream" (some (rewriteOpenError msg))],
        closed := true, telemetry := [] }
    | OpenOutcome.opened chunks streamErr =>
      let st := chunks.foldl processChunk {}
      let streamed := streamedFrames chunks
      match streamErr with
      | some e =>
        { frames := streamed ++ [Frame.errorF e none],
          closed := true,
          telemetry := [{ success := false, responseLength := st.fullResponse.length,
                          reasoningLength := st.fullReasoning.length,
                          chunkCount := st.chunkCount, errMsg := some e }] }
      | none =>
        let d := dispatchLoop ctx st.toolCalls 0
        { frames := streamed ++ d.1 ++ [Frame.done],
          closed := true,
          telemetry := [{ success := true, responseLength := (st.fullResponse ++ d.2).length,
                          reasoningLength := st.fullReasoning.length,
                          chunkCount := st.chunkCount, errMsg := none }] }

/-! ## Assembler lemmas -/

theorem getD_empty_of_truthy (o : Option String) :
    o.getD "" = if truthy o then o.getD "" else "" := by
  rcases o with _ | s
  · simp [truthy]
  · by_cases hs : s = "" <;> simp [truthy, hs]

theorem applyDelta_id (f : ToolCallDelta) (e : Entry) :
    (applyDelta f e).id = if truthy f.id then f.id.getD "" else e.id := rfl

theorem applyDelta_name (f : ToolCallDelta) (e : Entry) :
    (applyDelta f e).name = if truthy f.fname then f.fname.getD "" else e.name := rfl

theorem applyDelta_arguments (f : ToolCallDelta) (e : Entry) :
    (applyDelta f e).arguments = e.arguments ++ f.farguments.getD "" := by
  show (if truthy f.farguments then e.arguments ++ f.farguments.getD "" else e.arguments) = _
  rcases h : f.farguments with _ | s
  · simp [truthy, h]
  · by_cases hs : s = "" <;> simp [truthy, h, hs]

theorem lastTruthy_cons_getD (o : Option String) (l : List (Option String)) (cur : String) :
    (lastTruthy (o :: l)).getD cur =
      (lastTruthy l).getD (if truthy o then o.getD "" else cur) := by
  simp only [lastTruthy]
  rcases h : lastTruthy l with _ | s
  · rcases o with _ | t
    · simp [truthy]
    · by_cases ht : t = "" <;> simp [truthy, ht]
  · simp

theorem lastNonEmptyId_cons (f : ToolCallDelta) (rest : List ToolCallDelta) (cur : String) :
    (lastNonEmptyId (f :: rest)).getD cur =
      (lastNonEmptyId rest).getD (if truthy f.id then f.id.getD "" else cur) := by
  rw [lastNonEmptyId, List.map_cons, lastTruthy_cons_getD]
  rfl

theorem lastNonEmptyName_cons (f : ToolCallDelta) (rest : List ToolCallDelta) (cur : String) :
    (lastNonEmptyName (f :: rest)).getD cur =
      (lastNonEmptyName rest).getD (if truthy f.fname then f.fname.getD "" else cur) := by
  rw [lastNonEmptyName, List.map_cons, lastTruthy_cons_getD]
  rfl

theorem mapHas_singleton (i : Nat) (e : Entry) : mapHas [(i, e)] i = true := by
  simp [mapHas]

theorem mapGet_singleton (i : Nat) (e : Entry) : mapGet [(i, e)] i = some e := by
  simp [mapGet, List.find?]

theorem ingest_singleton (i : Nat) (e : Entry) (f : ToolCallDelta)
    (h : f.index.getD 0 = i) :
    ingestToolCallDelta [(i, e)] f = [(i, applyDelta f e)] := by
  simp [ingestToolCallDelta, h, mapHas, mapUpdate]

theorem ingest_empty (f : ToolCallDelta) :
    ingestToolCallDelta [] f =
      [(f.index.getD 0,
        applyDelta f { id := f.id.getD "", name := f.fname.getD "", arguments := "" })] := by
  simp [ingestToolCallDelta, mapHas, mapSetNew, mapUpdate]

theorem foldl_ingest_singleton (i : Nat) (frags : List ToolCallDelta) :
    ∀ e : Entry, (∀ f ∈ frags, f.index.getD 0 = i) →
      frags.foldl ingestToolCallDelta [(i, e)] =
        [(i, { id := (lastNonEmptyId frags).getD e.id,
               name := (lastNonEmptyName frags).getD e.name,
               arguments := e.arguments ++ argConcat frags })] := by
  induction frags with
  | nil => intro e _; simp [lastNonEmptyId, lastNonEmptyName, lastTruthy, argConcat]
  | cons f rest ih =>
    intro e hall
    have hf : f.index.getD 0 = i := hall f (by simp)
    rw [List.foldl_cons, ingest_singleton i e f hf,
        ih (applyDelta f e) (fun g hg => hall g (by simp [hg]))]
    have hid : (lastNonEmptyId rest).getD (applyDelta f e).id =
        (lastNonEmptyId (f :: rest)).getD e.id := by
      rw [applyDelta_id, lastNonEmptyId_cons]
    have hname : (lastNonEmptyName rest).getD (applyDelta f e).name =
        (lastNonEmptyName (f :: rest)).getD e.name := by
      rw [applyDelta_name, lastNonEmptyName_cons]
    have hargs : (applyDelta f e).arguments ++ argConcat rest =
        e.arguments ++ argConcat (f :: rest) := by
      rw [applyDelta_arguments, argConcat, String.append_assoc]
    rw [hid, hname, hargs]

theorem foldl_ingest_from_empty (i : Nat) (f : ToolCallDelta) (rest : List ToolCallDelta)
    (hf : f.index.getD 0 = i) (hall : ∀ g ∈ rest, g.index.getD 0 = i) :
    (f :: rest).foldl ingestToolCallDelta [] =
      [(i, { id := (lastNonEmptyId (f :: rest)).getD "",
             name := (lastNonEmptyName (f :: rest)).getD "",
             arguments := argConcat (f :: rest) })] := by
  rw [List.foldl_cons, ingest_empty, hf, foldl_ingest_singleton i rest _ hall]
  have hid : (lastNonEmptyId rest).getD
      (applyDelta f { id := f.id.getD "", name := f.fname.getD "", arguments := "" }).id =
      (lastNonEmptyId (f :: rest)).getD "" := by
    have harg : (applyDelta f
        { id := f.id.getD "", name := f.fname.getD "", arguments := "" }).id =
        f.id.getD "" := by
      rw [applyDelta_id]; split <;> rfl
    rw [harg, lastNonEmptyId_cons, ← getD_empty_of_truthy]
  have hname : (lastNonEmptyName rest).getD
      (applyDelta f { id := f.id.getD "", name := f.fname.getD "", arguments := "" }).name =
      (lastNonEmptyName (f :: rest)).getD "" := by
    have harg : (applyDelta f
        { id := f.id.getD "", name := f.fname.getD "", arguments := "" }).name =
        f.fname.getD "" := by
      rw [applyDelta_name]; split <;> rfl
    rw [harg, lastNonEmptyName_cons, ← getD_empty_of_truthy]
  have hargs : (applyDelta f
      { id := f.id.getD "", name := f.fname.getD "", arguments := "" }).arguments ++
      argConcat rest = argConcat (f :: rest) := by
    rw [applyDelta_arguments, argConcat]
    simp
  rw [hid, hname, hargs]

/-- C2: for every sequence of tool-call delta fragments ingested for one
index during a single stream, the resolved argument string is the
concatenation of all arguments fragments in arrival order, and the name is
the last non-empty name supplied (empty when none was, and never cleared by
a fragment omitting or emptying the name). -/
theorem C2_assembler_append_only (i : Nat) (frags : List ToolCallDelta)
    (hne : frags ≠ []) (hall : ∀ f ∈ frags, f.index.getD 0 = i) :
    mapGet (frags.foldl ingestToolCallDelta []) i =
      some { id := (lastNonEmptyId frags).getD "",
             name := (lastNonEmptyName frags).getD "",
             arguments := argConcat frags } := by
  rcases frags with _ | ⟨f, rest⟩
  · exact absurd rfl hne
  · rw [foldl_ingest_from_empty i f rest (hall f (by simp))
        (fun g hg => hall g (by simp [hg])), mapGet_singleton]

/-- Concrete fragments exercising C2: the name arrives once, a later
fragment omits it, argument text arrives in three pieces. -/
def c2frag1 : ToolCallDelta :=
  { index := some 0, id := some "call_1", fname := some "generate_image", farguments := some "abc" }

def c2frag2 : ToolCallDelta :=
  { index := some 0, id := none, fname := some "", farguments := some "def" }

def c2frag3 : ToolCallDelta :=
  { index := some 0, id := none, fname := none, farguments := some "ghi" }

theorem C2_assembler_append_only_witness :
    mapGet ([c2frag1, c2frag2, c2frag3].foldl ingestToolCallDelta []) 0 =
      some { id := "call_1", name := "generate_image", arguments := "abcdefghi" } := by
  rw [C2_assembler_append_only 0 [c2frag1, c2frag2, c2frag3] (by decide)
      (by intro f hf; fin_cases hf <;> rfl)]
  rfl

/-- C10: a tool-call delta fragment with an absent index is treated as
index 0, and a stream of index-less fragments merges into the single
accumulator entry keyed by 0, whose id and name are overwritten by truthy
fragments and whose argument buffer is the concatenation of the argument
fragments. -/
theorem C10_indexless_fragments_merge_at_zero :
    (∀ (m : ToolMap) (tcd : ToolCallDelta), tcd.index = none →
      ingestToolCallDelta m tcd = ingestToolCallDelta m { tcd with index := some 0 }) ∧
    (∀ (f : ToolCallDelta) (rest : List ToolCallDelta),
      f.index = none → (∀ g ∈ rest, g.index = none) →
      (f :: rest).foldl ingestToolCallDelta [] =
        [(0, { id := (lastNonEmptyId (f :: rest)).getD "",
               name := (lastNonEmptyName (f :: rest)).getD "",
               arguments := argConcat (f :: rest) })]) := by
  constructor
  · intro m tcd h
    have happ : applyDelta { tcd with index := some 0 } = applyDelta tcd := by
      funext e; simp [applyDelta]
    simp [ingestToolCallDelta, h, happ]
  · intro f rest hf hall
    exact foldl_ingest_from_empty 0 f rest (by simp [hf])
      (fun g hg => by simp [hall g hg])

def c10frag1 : ToolCallDelta :=
  { index := none, id := some "call_a", fname := some "show_youtube_video", farguments := some "xy" }

def c10frag2 : ToolCallDelta :=
  { index := none, id := none, fname := none, farguments := some "z" }

theorem C10_indexless_fragments_merge_at_zero_witness :
    ([c10frag1, c10frag2].foldl ingestToolCallDelta []) =
      [(0, { id := "call_a", name := "show_youtube_video", arguments := "xyz" })] := by
  rw [C10_indexless_fragments_merge_at_zero.2 c10frag1 [c10frag2] rfl
      (by intro g hg; fin_cases hg; rfl)]
  rfl

/-! ## Image-generation retry bound -/

/-- C3: an image-generation call whose secondary upstream response is
structurally invalid on every attempt performs exactly 3 attempts (the
initial one plus 2 retries), sleeps the fixed 1000 ms backoff before each
of the 2 retries, and surfaces a terminal per-call error. -/
theorem C3_image_retry_bound (oracle : Nat → Option String)
    (hbad : ∀ k, isValidUrl (oracle k) = false) :
    generateImage oracle 0 =
      { result := Except.error "No valid image URL returned after 3 attempts",
        attempts := 3, delays := [1000, 1000] } := by
  rw [generateImage, generateImage, generateImage]
  simp [hbad 0, hbad 1, hbad 2]
  rfl

theorem C3_image_retry_bound_witness :
    generateImage (fun _ => none) 0 =
      { result := Except.error "No valid image URL returned after 3 attempts",
        attempts := 3, delays := [1000, 1000] } :=
  C3_image_retry_bound (fun _ => none) (fun _ => rfl)

/-! ## Normalization round trip -/

theorem roundtrip_part (p : JPart) (h : WirePart p) :
    ∃ q, transformPart p = some q ∧ convertPart q = some p := by
  rcases h with ⟨ht, _, hiu, hcu⟩ | ⟨ht, htext, hiu, hcu⟩
  · refine ⟨{ type := "text", text := p.text }, by simp [transformPart, ht], ?_⟩
    simp only [convertPart, if_pos rfl]
    rcases p with ⟨t, x, iu, cu⟩
    simp_all
  · rcases hiu2 : p.image_url with _ | iu
    · exact absurd hiu2 hiu
    · refine ⟨{ type := "image_url", imageUrl := some { url := iu.url, detail := iu.detail } },
        ?_, ?_⟩
      · simp [transformPart, ht, hiu2]
      · simp only [convertPart]
        rw [if_neg (by simp)]
        rcases p with ⟨t, x, piu, cu⟩
        simp_all

theorem roundtrip_parts (parts : List JPart) (h : ∀ p ∈ parts, WirePart p) :
    ∃ qs, transformParts parts = some qs ∧ convertParts qs = some parts := by
  induction parts with
  | nil => exact ⟨[], rfl, rfl⟩
  | cons p rest ih =>
    obtain ⟨q, hq1, hq2⟩ := roundtrip_part p (h p (by simp))
    obtain ⟨qs, hqs1, hqs2⟩ := ih fun r hr => h r (by simp [hr])
    exact ⟨q :: qs, by simp [transformParts, hq1, hqs1], by simp [convertParts, hq2, hqs2]⟩

theorem roundtrip_message (m : JMessage) (h : WireMessage m) :
    ∃ q, transformMessage m = some q ∧ convertMessage q = some m := by
  obtain ⟨_, hcontent⟩ := h
  rcases m with ⟨r, c⟩
  by_cases hu : r = "user" ∨ r = "assistant"
  · rcases c with s | parts
    · exact ⟨⟨r, JContent.str s⟩, by simp [transformMessage, hu], by simp [convertMessage]⟩
    · have hw : ∀ p ∈ parts, WirePart p := hcontent
      obtain ⟨qs, h1, h2⟩ := roundtrip_parts parts hw
      exact ⟨⟨r, JContent.arr qs⟩, by simp [transformMessage, hu, h1],
        by simp [convertMessage, hu, h2]⟩
  · refine ⟨⟨r, c⟩, by simp [transformMessage, hu], ?_⟩
    rcases c with s | parts
    · simp [convertMessage]
    · simp [convertMessage, hu]

/-- C6: denormalizing the normalized form of a message of the recognized
wire shape yields the original message back. -/
theorem C6_normalization_roundtrip (m : JMessage) (h : WireMessage m) :
    (transformMessages [m]).bind convertMessagesToAPIFormat = some [m] := by
  obtain ⟨q, h1, h2⟩ := roundtrip_message m h
  simp [transformMessages, convertMessagesToAPIFormat, h1, h2]

/-- A wire-shaped user message carrying a text part and an image part. -/
def c6msg : JMessage :=
  { role := "user",
    content := JContent.arr
      [{ type := "text", text := some "hi" },
       { type := "image_url", image_url := some { url := "https://img.example/a.png", detail := some "low" } }] }

theorem C6_normalization_roundtrip_witness :
    WireMessage c6msg ∧
      (transformMessages [c6msg]).bind convertMessagesToAPIFormat = some [c6msg] :=
  ⟨by decide, C6_normalization_roundtrip c6msg (by decide)⟩

/-! ## Unrecognized content-part tags -/

/-- A part tagged neither text nor image_url, carrying an image_url field. -/
def c8part : JPart :=
  { type := "custom", image_url := some { url := "https://img.example/b.png", detail := none } }

def c8msg : JMessage := { role := "user", content := JContent.arr [c8part] }

/-- C8 is false on the code: a part tagged custom is not passed through
unchanged (its tag is rewritten to image_url), and a part tagged custom
with no image_url field makes the normalizer fault, so normalization is
not total over arbitrary part tags. -/
theorem C8_counterexample :
    transformMessages [c8msg] ≠ some [c8msg] ∧
      transformMessage { role := "user", content := JContent.arr [{ type := "custom" }] } =
        none := by
  constructor
  · decide
  · decide

/-- C8 amended: a content part whose tag is not text is treated as an
image_url part, never passed through unchanged: the normalizer reads its
snake-case image_url field and re-emits the part with tag image_url and
the camel-case imageUrl field (so a part with a different tag is changed),
and it faults when that field is absent. -/
theorem C8_nontext_parts_rewritten (p : JPart) (h : p.type ≠ "text") :
    transformPart p = p.image_url.map
      (fun iu => { type := "image_url", imageUrl := some { url := iu.url, detail := iu.detail } }) ∧
    (p.type ≠ "image_url" → transformPart p ≠ some p) ∧
    (p.image_url = none → transformPart p = none) := by
  refine ⟨by simp [transformPart, h], ?_, ?_⟩
  · intro ht heq
    rcases hiu : p.image_url with _ | iu
    · simp [transformPart, h, hiu] at heq
    · simp only [transformPart, if_neg h, hiu, Option.map_some'] at heq
      have := congrArg JPart.type (Option.some.inj heq)
      exact ht this.symm
  · intro hiu
    simp [transformPart, h, hiu]

theorem C8_nontext_parts_rewritten_witness :
    transformPart c8part =
      some { type := "image_url",
             imageUrl := some { url := "https://img.example/b.png", detail := none } } ∧
      transformPart c8part ≠ some c8part := by
  have h := C8_nontext_parts_rewritten c8part (by decide)
  exact ⟨by rw [h.1]; rfl, h.2.1 (by decide)⟩

/-! ## Terminal-frame lemmas -/

theorem done_not_in_chunkFrames (c : Chunk) : Frame.done ∉ chunkFrames c := by
  unfold chunkFrames
  rcases c.choices.head? with _ | choice
  · simp
  · intro h
    rcases List.mem_append.mp h with h2 | h2 <;> (split at h2 <;> simp_all)

theorem done_not_in_streamedFrames (chunks : List Chunk) :
    Frame.done ∉ streamedFrames chunks := by
  intro h
  simp only [streamedFrames, List.mem_flatten, List.mem_map] at h
  obtain ⟨l, ⟨c, _, hc⟩, hmem⟩ := h
  exact done_not_in_chunkFrames c (hc ▸ hmem)

theorem done_not_in_dispatchOne (ctx : DispatchCtx) (n : Nat) (tc : Entry) :
    Frame.done ∉ (dispatchOne ctx n tc).1 := by
  rcases hpi : ctx.parseImgArgs tc.arguments with e1 | a1 <;>
    rcases hpy : ctx.parseYtArgs tc.arguments with e2 | a2 <;>
    rcases hir : ctx.imageResult n with e3 | u <;>
    by_cases hg : tc.name = "generate_image" <;>
    by_cases hy : tc.name = "show_youtube_video" <;>
    simp [dispatchOne, hpi, hpy, hir, hg, hy]

theorem done_not_in_dispatchLoop (ctx : DispatchCtx) (l : List (Nat × Entry)) (n : Nat) :
    Frame.done ∉ (dispatchLoop ctx l n).1 := by
  induction l generalizing n with
  | nil => simp [dispatchLoop]
  | cons p rest ih =>
    intro h
    simp only [dispatchLoop, List.mem_append] at h
    rcases h with h | h
    · exact done_not_in_dispatchOne ctx n p.2 h
    · exact ih _ h

/-- C1: for every api-key state, stream-open outcome, chunk sequence
(including one whose iteration raises mid-stream) and dispatch-oracle
behaviour, the relay writes exactly one terminal frame as the last frame:
the DONE marker on the success path (appearing nowhere else), or a terminal
error frame on a failure path (with no DONE anywhere) — never both. -/
theorem C1_exactly_one_terminal_frame (apiKey : Option String) (outcome : OpenOutcome)
    (ctx : DispatchCtx) :
    (∃ fs, (streamChat apiKey outcome ctx).frames = fs ++ [Frame.done] ∧ Frame.done ∉ fs) ∨
    (∃ fs msg details,
      (streamChat apiKey outcome ctx).frames = fs ++ [Frame.errorF msg details] ∧
      Frame.done ∉ (streamChat apiKey outcome ctx).frames) := by
  by_cases hk : apiKey.getD "" = ""
  · right
    refine ⟨[], "Failed to initialize chat stream",
      some "OPENROUTER_API_KEY environment variable is not set or is empty", ?_, ?_⟩ <;>
      simp [streamChat, hk]
  · rcases outcome with msg | ⟨chunks, serr⟩
    · right
      refine ⟨[], "Failed to initialize chat stream", some (rewriteOpenError msg), ?_, ?_⟩ <;>
        simp [streamChat, hk]
    · rcases serr with _ | e
      · left
        refine ⟨streamedFrames chunks ++
          (dispatchLoop ctx ((chunks.foldl processChunk {}).toolCalls) 0).1, ?_, ?_⟩
        · simp [streamChat, hk]
        · intro hmem
          rcases List.mem_append.mp hmem with h | h
          · exact done_not_in_streamedFrames chunks h
          · exact done_not_in_dispatchLoop ctx _ 0 h
      · right
        refine ⟨streamedFrames chunks, e, none, by simp [streamChat, hk], ?_⟩
        intro hmem
        simp only [streamChat, if_neg hk] at hmem
        rcases List.mem_append.mp hmem with h | h
        · exact done_not_in_streamedFrames chunks h
        · simp at h

/-! ## Stream-open failure with a User-not-found message -/

/-- Dispatch oracles for concrete runs: both parses fail and the image
call fails (never consulted in the scenarios that use this context). -/
def ctx0 : DispatchCtx :=
  { parseImgArgs := fun _ => Except.error "parse failure",
    parseYtArgs := fun _ => Except.error "parse failure",
    imageResult := fun _ => Except.error "image failure" }

/-- C4 is false on the code: on a stream-open failure the relay writes the
rewritten error frame and closes, but captureEvent is never called in that
path, so the stream-outcome record is emitted zero times, not exactly
once. -/
theorem C4_counterexample :
    (streamChat (some "sk-test") (OpenOutcome.openError "User not found") ctx0).telemetry =
      [] := by
  rfl

/-- C4 amended: when opening the upstream stream fails with an error whose
message contains the User-not-found substring, the relay writes a single
error frame whose user-visible text is the rewritten invalid-key message
and closes the connection, but it emits NO stream-outcome record to the
telemetry sink in this path. -/
theorem C4_user_not_found_rewrite (k msg : String) (ctx : DispatchCtx)
    (hk : k ≠ "") (hmsg : containsSub msg "User not found" = true) :
    streamChat (some k) (OpenOutcome.openError msg) ctx =
      { frames := [Frame.errorF "Failed to initialize chat stream" (some invalidKeyMessage)],
        closed := true, telemetry := [] } := by
  simp [streamChat, hk, rewriteOpenError, hmsg]

theorem C4_user_not_found_rewrite_witness :
    streamChat (some "sk-or-v1") (OpenOutcome.openError "401 User not found") ctx0 =
      { frames := [Frame.errorF "Failed to initialize chat stream" (some invalidKeyMessage)],
        closed := true, telemetry := [] } :=
  C4_user_not_found_rewrite "sk-or-v1" "401 User not found" ctx0 (by decide) (by rfl)

/-! ## Dispatch ordering and isolation -/

theorem dispatchLoop_frames_eq_blocks (ctx : DispatchCtx) (l : List (Nat × Entry)) (n : Nat) :
    (dispatchLoop ctx l n).1 = (dispatchBlocks ctx l n).flatten := by
  induction l generalizing n with
  | nil => rfl
  | cons p rest ih => simp [dispatchLoop, dispatchBlocks, ih]

theorem mapUpdate_keys (m : ToolMap) (k : Nat) (f : Entry → Entry) :
    (mapUpdate m k f).map Prod.fst = m.map Prod.fst := by
  simp only [mapUpdate, List.map_map]
  have h : (Prod.fst ∘ fun p : Nat × Entry => if p.1 == k then (p.1, f p.2) else p) =
      Prod.fst := by
    funext p
    simp only [Function.comp_apply]
    split <;> rfl
  rw [h]

/-- A chunk sequence whose first tool-call fragment carries index 1 and
whose second carries index 0: the accumulator is created in that arrival
order. -/
def c5fragA : ToolCallDelta :=
  { index := some 1, id := some "b", fname := some "show_youtube_video",
    farguments := some "argsB" }

def c5fragB : ToolCallDelta :=
  { index := some 0, id := some "a", fname := some "show_youtube_video",
    farguments := some "argsA" }

def c5chunkA : Chunk := { choices := [{ delta := some { tool_calls := some [c5fragA] } }] }

def c5chunkB : Chunk := { choices := [{ delta := some { tool_calls := some [c5fragB] } }] }

/-- Oracles distinguishing the two argument buffers by their video id. -/
def c5ctx : DispatchCtx :=
  { parseImgArgs := fun _ => Except.error "parse failure",
    parseYtArgs := fun s =>
      if s = "argsB" then Except.ok { videoId := some "vid-idx1" }
      else Except.ok { videoId := some "vid-idx0" },
    imageResult := fun _ => Except.error "image failure" }

/-- C5 is false on the code: the dispatch loop iterates the accumulator Map
in insertion order, so when the first fragment for index 1 arrives before
the first fragment for index 0, the index-1 tool call is dispatched first
and its event appears first — not ascending index order. -/
theorem C5_counterexample :
    (streamChat (some "k") (OpenOutcome.opened [c5chunkA, c5chunkB] none) c5ctx).frames =
      [Frame.youtubeF (some "vid-idx1") "", Frame.youtubeF (some "vid-idx0") "",
       Frame.done] ∧
    ([c5chunkA, c5chunkB].foldl processChunk {}).toolCalls.map Prod.fst = [1, 0] := by
  constructor
  · decide
  · decide

/-- C5 amended: side-effect dispatches run strictly sequentially in the
insertion order of the accumulator — the order in which the first fragment
for each index arrived — and the output events appear as the concatenation
of the per-call blocks in that same order; ingestion appends a fresh index
at the end of the key list, so insertion order is first-arrival order, and
coincides with ascending index order only when first fragments arrive in
ascending index order. -/
theorem C5_dispatch_insertion_order :
    (∀ (ctx : DispatchCtx) (l : List (Nat × Entry)) (n : Nat),
      (dispatchLoop ctx l n).1 = (dispatchBlocks ctx l n).flatten) ∧
    (∀ (m : ToolMap) (tcd : ToolCallDelta),
      (ingestToolCallDelta m tcd).map Prod.fst =
        if mapHas m (tcd.index.getD 0) then m.map Prod.fst
        else m.map Prod.fst ++ [tcd.index.getD 0]) := by
  refine ⟨dispatchLoop_frames_eq_blocks, ?_⟩
  intro m tcd
  by_cases h : mapHas m (tcd.index.getD 0)
  · simp [ingestToolCallDelta, h, mapUpdate_keys]
  · simp [ingestToolCallDelta, h, mapUpdate_keys, mapSetNew]

/-- C9: tool-dispatch failure is isolated.  First conjunct: on the success
path the frame stream is always the streamed frames, then one block per
accumulator entry in order — each block a function of that entry and its
own oracle outcomes alone — then the terminal DONE marker, whatever any
oracle (JSON parse, image generation) answers.  Second conjunct: every
recognized tool call contributes exactly one frame, a result event or an
inline error event, so one failing call never suppresses a sibling block
or the terminal frame. -/
theorem C9_dispatch_isolation :
    (∀ (k : String) (chunks : List Chunk) (ctx : DispatchCtx), k ≠ "" →
      (streamChat (some k) (OpenOutcome.opened chunks none) ctx).frames =
        streamedFrames chunks ++
          ((dispatchBlocks ctx (chunks.foldl processChunk {}).toolCalls 0).flatten ++
            [Frame.done])) ∧
    (∀ (ctx : DispatchCtx) (n : Nat) (tc : Entry),
      tc.name = "generate_image" ∨ tc.name = "show_youtube_video" →
      (dispatchOne ctx n tc).1.length = 1) := by
  constructor
  · intro k chunks ctx hk
    simp [streamChat, hk, dispatchLoop_frames_eq_blocks]
  · intro ctx n tc h
    rcases h with h | h
    · have hy : tc.name ≠ "show_youtube_video" := by rw [h]; decide
      rcases hpi : ctx.parseImgArgs tc.arguments with e1 | a1 <;>
        rcases hir : ctx.imageResult n with e3 | u <;>
        simp [dispatchOne, h, hy, hpi, hir]
    · have hg : tc.name ≠ "generate_image" := by rw [h]; decide
      rcases hpy : ctx.parseYtArgs tc.arguments with e2 | a2 <;>
        simp [dispatchOne, h, hg, hpy]

theorem C9_dispatch_isolation_witness :
    (streamChat (some "k") (OpenOutcome.opened [c5chunkA] none) ctx0).frames =
      streamedFrames [c5chunkA] ++
        ((dispatchBlocks ctx0 ([c5chunkA].foldl processChunk {}).toolCalls 0).flatten ++
          [Frame.done]) ∧
    (dispatchOne ctx0 0 { id := "b", name := "show_youtube_video", arguments := "argsB" }).1.length = 1 :=
  ⟨C9_dispatch_isolation.1 "k" [c5chunkA] ctx0 (by decide),
   C9_dispatch_isolation.2 ctx0 0 { id := "b", name := "show_youtube_video", arguments := "argsB" }
     (Or.inr rfl)⟩

/-! ## YouTube video-embed dispatch -/

/-- A resolved show_youtube_video call whose argument buffer parses to an
object with no videoId field. -/
def c7entry : Entry := { id := "c", name := "show_youtube_video", arguments := "noVideoId" }

def c7ctx : DispatchCtx :=
  { parseImgArgs := fun _ => Except.error "parse failure",
    parseYtArgs := fun _ => Except.ok {},
    imageResult := fun _ => Except.error "image failure" }

/-- C7 is false on the code: the dispatcher never validates the presence of
videoId — when the parsed arguments carry none, it still emits a youtube
event (with the field absent) and no error event at all. -/
theorem C7_counterexample :
    (dispatchOne c7ctx 0 c7entry).1 = [Frame.youtubeF none ""] ∧
    ∀ m d, Frame.errorF m d ∉ (dispatchOne c7ctx 0 c7entry).1 := by
  have h1 : (dispatchOne c7ctx 0 c7entry).1 = [Frame.youtubeF none ""] := by decide
  exact ⟨h1, fun m d hmem => by rw [h1] at hmem; simp at hmem⟩

/-- C7 amended: for every resolved tool call named show_youtube_video the
dispatcher performs no network call (the image-generation oracle ordinal is
left untouched) and re-packages the parsed arguments as a youtube output
event WITHOUT validating the presence of videoId (an absent videoId is
forwarded as an absent field); if the argument buffer fails to parse as
JSON, a per-call error event is emitted instead, and in either case the
call contributes exactly this one inline event. -/
theorem C7_youtube_dispatch (ctx : DispatchCtx) (n : Nat) (tc : Entry)
    (h : tc.name = "show_youtube_video") :
    (dispatchOne ctx n tc).2.2 = n ∧
    (∀ a, ctx.parseYtArgs tc.arguments = Except.ok a →
      (dispatchOne ctx n tc).1 = [Frame.youtubeF a.videoId (a.explanation.getD "")]) ∧
    (∀ e, ctx.parseYtArgs tc.arguments = Except.error e →
      (dispatchOne ctx n tc).1 =
        [Frame.errorF ("Failed to embed YouTube video: " ++ e) none]) := by
  have hg : tc.name ≠ "generate_image" := by rw [h]; decide
  refine ⟨by simp [dispatchOne, hg], ?_, ?_⟩
  · intro a ha
    simp [dispatchOne, h, hg, ha]
  · intro e he
    simp [dispatchOne, h, hg, he]

theorem C7_youtube_dispatch_witness :
    (dispatchOne c7ctx 0 c7entry).2.2 = 0 ∧
    (dispatchOne c7ctx 0 c7entry).1 = [Frame.youtubeF none ""] := by
  have h := C7_youtube_dispatch c7ctx 0 c7entry rfl
  exact ⟨h.1, h.2.1 {} rfl⟩

end GraphLLM
